import Mathlib

/-!
# GoFiber_RestAPI: user routes over a relational store

A shallow embedding of `routes/user.go` (the DTO mapper `CreateResponseUser`,
the lookup `findUser`, and the handlers `CreateUser`, `GetUsers`, `GetUser`,
`UpdateUser`) together with the collaborators the handlers call:

* `strconv.Atoi`, reached through `fiber.Ctx.ParamsInt`;
* `fiber.Ctx.BodyParser`, abstracted to the outcome of deserialisation;
* the `users` table behind `database.Database.Db` (GORM on SQLite), as an
  explicit state that every handler receives and returns.

Identifiers are natural numbers (`uint` in the source); the 64-bit width is
modelled where the behaviour depends on it: in the range check of `Atoi` and in
the largest rowid the table can hold. Time is an abstract instant (`Nat`, `0` being the zero `time.Time`), supplied
by the caller as `now`.
-/

namespace models

/-- Modelled from the spec: the declaration of `models.User` (its file is not
part of the sources). The fields `ID`, `FirstName`, `LastName` are the ones
`routes/user.go` reads and writes (`ID` is assigned to a `uint`); `CreatedAt`
is the creation timestamp the spec gives every entity model, as in the sibling
`models.Product`. -/
structure User where
  ID : Nat
  CreatedAt : Nat
  FirstName : String
  LastName : String
  deriving DecidableEq, Repr, Inhabited

/-- The zero value of `models.User`, what `var user models.User` declares. -/
def User.zero : User := { ID := 0, CreatedAt := 0, FirstName := "", LastName := "" }

end models

namespace strconv

/-- Value of an ASCII decimal digit, `none` for any other character. -/
def digit (ch : Char) : Option Nat :=
  if 48 ≤ ch.toNat ∧ ch.toNat ≤ 57 then some (ch.toNat - 48) else none

/-- Accumulates decimal digits left to right; `none` at the first character
that is not a digit (`strconv.ErrSyntax`). -/
def digits : List Char → Nat → Option Nat
  | [], acc => some acc
  | ch :: rest, acc =>
    match digit ch with
    | some d => digits rest (acc * 10 + d)
    | none => none

/-- Unsigned magnitude of a digit string; the empty string is a syntax error. -/
def magnitude : List Char → Option Nat
  | [] => none
  | cs => digits cs 0

/-- Model of `strconv.Atoi` for a 64-bit `int`: an optional sign, then one or
more decimal digits, the value within `[-2^63, 2^63 - 1]`; `none` stands for
the returned `*NumError` (syntax or range). -/
def Atoi (s : String) : Option Int :=
  match s.toList with
  | [] => none
  | '-' :: cs =>
    match magnitude cs with
    | some n => if n ≤ 2 ^ 63 then some (-(n : Int)) else none
    | none => none
  | '+' :: cs =>
    match magnitude cs with
    | some n => if n < 2 ^ 63 then some (n : Int) else none
    | none => none
  | cs =>
    match magnitude cs with
    | some n => if n < 2 ^ 63 then some (n : Int) else none
    | none => none

/-- The character of a decimal digit. -/
def digitChar (d : Nat) : Char := Char.ofNat (48 + d)

/-- Decimal digits of `n`, most significant first, in front of `acc`; `fuel`
bounds the number of digits. -/
def itoaDigits : Nat → Nat → List Char → List Char
  | 0, _, acc => acc
  | fuel + 1, n, acc =>
    if n < 10 then digitChar n :: acc
    else itoaDigits fuel (n / 10) (digitChar (n % 10) :: acc)

/-- Model of `strconv.Itoa` on a non-negative number: its decimal form, the
text a client puts in the path for an identifier it was given. -/
def Itoa (n : Nat) : String := String.mk (itoaDigits (n + 1) n [])

end strconv

namespace fiber

/-- Outcome of deserialising a request body, as `Ctx.BodyParser` sees it:
either the payload cannot be decoded (unknown content type, invalid JSON, a
member of the wrong type), with the decoder's message, or it is an object
whose members `id`, `first_name`, `last_name` and the creation time
`CreatedAt` are each present or absent. -/
inductive Body where
  | malformed (err : String)
  | wellformed (id : Option Nat) (first_name : Option String) (last_name : Option String)
      (created_at : Option Nat)
  deriving DecidableEq, Repr

/-- The part of `fiber.Ctx` the handlers read: the `:id` path parameter and
the request body. -/
structure Ctx where
  id : String
  body : Body
  deriving DecidableEq, Repr

/-- Model of `Ctx.ParamsInt("id")`: `strconv.Atoi` of the path parameter;
`none` stands for the non-nil error. -/
def Ctx.ParamsInt (c : Ctx) : Option Int := strconv.Atoi c.id

end fiber

namespace gorm

/-- State of the `users` table behind `database.Database.Db`: its rows in
rowid order (the order a full scan returns them) and the largest identifier
the table has ever handed out (SQLite keeps it for an `AUTOINCREMENT` primary
key, which is what GORM declares for an unsigned integer primary key). -/
structure DB where
  rows : List models.User
  seq : Nat
  deriving DecidableEq, Repr

/-- A freshly migrated, empty database. -/
def DB.empty : DB := { rows := [], seq := 0 }

/-- Largest identifier among the rows, `0` for no rows. -/
def maxID : List models.User → Nat
  | [] => 0
  | r :: rest => max r.ID (maxID rest)

/-- Largest rowid the table can hold, the largest signed 64-bit integer. -/
def maxRowid : Nat := 2 ^ 63 - 1

/-- Largest identifier the table has ever used. -/
def DB.top (db : DB) : Nat := max db.seq (maxID db.rows)

/-- Identifier the table assigns to a row inserted without one: one more than
the largest identifier ever used; `none` once that one is the largest rowid,
when the table refuses the insert. -/
def DB.nextID (db : DB) : Option Nat :=
  if db.top < maxRowid then some (db.top + 1) else none

/-- Whether some row has the given primary key. -/
def DB.hasID (db : DB) (id : Nat) : Bool := db.rows.any (fun r => r.ID == id)

/-- Places a row at its position in rowid order. -/
def insertRow (u : models.User) : List models.User → List models.User
  | [] => [u]
  | r :: rest => if u.ID < r.ID then u :: r :: rest else r :: insertRow u rest

/-- Model of `Db.Create(&user)`: a zero `CreatedAt` is set to the current
time; a zero primary key is left to the table, which assigns the next
identifier and writes it back into the record, or refuses the insert when it
has none left; a non-zero primary key is inserted as given, and the insert
fails when the key does not fit a rowid or a row with that key exists. A
failed insert leaves the table as it was and the primary key of the record as
it was. The returned error is not part of the result, since no caller reads
it. -/
def DB.Create (db : DB) (now : Nat) (user : models.User) : DB × models.User :=
  let user := if user.CreatedAt = 0 then { user with CreatedAt := now } else user
  if user.ID = 0 then
    match db.nextID with
    | some id =>
      let user := { user with ID := id }
      ({ rows := insertRow user db.rows, seq := id }, user)
    | none => (db, user)
  else if maxRowid < user.ID then
    (db, user)
  else if db.hasID user.ID then
    (db, user)
  else
    ({ rows := insertRow user db.rows, seq := max db.seq user.ID }, user)

/-- Model of `Db.Find(&users)` on a slice: every row, in scan order. -/
def DB.Find (db : DB) : List models.User := db.rows

/-- Model of `Db.Find(&user, "id = ?", id)` on a single record: the query asks
for the row whose primary key equals `id` and, when the destination already
has a non-zero primary key, equals that key as well; the row found is copied
into the destination, and with no such row the destination keeps its value. -/
def DB.FindWhereID (db : DB) (id : Int) (user : models.User) : models.User :=
  match db.rows.find?
      (fun r => decide ((r.ID : Int) = id) && (user.ID == 0 || r.ID == user.ID)) with
  | some r => r
  | none => user

/-- Model of `Db.Save(&user)`: a record with a zero primary key is created;
otherwise every column of the rows with that key is overwritten by the record,
and when no row has the key the record is inserted. -/
def DB.Save (db : DB) (now : Nat) (user : models.User) : DB × models.User :=
  if user.ID = 0 then
    db.Create now user
  else if db.hasID user.ID then
    ({ db with rows := db.rows.map (fun r => if r.ID = user.ID then user else r) }, user)
  else
    db.Create now user

/-- Primary-key constraint of the table: no two rows share an identifier. -/
def DB.UniqueIDs (db : DB) : Prop := (db.rows.map (fun r => r.ID)).Nodup

instance (db : DB) : Decidable db.UniqueIDs := by
  unfold DB.UniqueIDs; infer_instance

end gorm

namespace routes

open fiber gorm

/-- The DTO `routes.User`, the record the handlers serialise. -/
structure User where
  ID : Nat
  FirstName : String
  LastName : String
  deriving DecidableEq, Repr

/-- What a handler passes to `c.Status(n).JSON(...)`: an error string, one
DTO, or a sequence of DTOs. -/
inductive Payload where
  | message (s : String)
  | user (u : User)
  | users (us : List User)
  deriving DecidableEq, Repr

/-- The response a handler writes: status code and JSON payload. -/
structure Response where
  status : Nat
  body : Payload
  deriving DecidableEq, Repr

/-- Go's `error`: `none` is `nil`, `some msg` an error with that message. -/
abbrev error := Option String

def CreateResponseUser (userModel : models.User) : User :=
  { ID := userModel.ID, FirstName := userModel.FirstName, LastName := userModel.LastName }

/-- Modelled from the spec: how a request body is deserialised into
`models.User`, which the declaration of that type (not part of the sources)
decides. The spec gives the body as `{first_name, last_name}`-shaped JSON,
"identifier ignored if present", deserialised "into a User shape": the names
present are stored, an absent name is the empty string, an `id` member is
dropped and the identifier stays zero, and a creation time present in the body
is stored in `CreatedAt`. -/
def BodyParserUser (b : Body) : Except String models.User :=
  match b with
  | .malformed err => .error err
  | .wellformed _ first_name last_name created_at =>
    .ok { models.User.zero with
          CreatedAt := created_at.getD 0,
          FirstName := first_name.getD "", LastName := last_name.getD "" }

/-- The local type `UpdateUser` declared inside the handler `UpdateUser`. -/
structure UpdateUserData where
  FirstName : String
  LastName : String
  deriving DecidableEq, Repr

/-- Model of `c.BodyParser(&updateData)`: only `first_name` and `last_name`
have a field to go to; any other member is skipped. -/
def BodyParserUpdate (b : Body) : Except String UpdateUserData :=
  match b with
  | .malformed err => .error err
  | .wellformed _ first_name last_name _ =>
    .ok { FirstName := first_name.getD "", LastName := last_name.getD "" }

def CreateUser (db : DB) (now : Nat) (c : Ctx) : DB × Response :=
  match BodyParserUser c.body with
  | .error err => (db, ⟨400, .message err⟩)
  | .ok user =>
    let (db, user) := db.Create now user
    let responseUser := CreateResponseUser user
    (db, ⟨200, .user responseUser⟩)

def GetUsers (db : DB) (_c : Ctx) : DB × Response :=
  let users := db.Find
  let responseUsers := users.foldl (fun acc user => acc ++ [CreateResponseUser user]) []
  (db, ⟨200, .users responseUsers⟩)

/-- The Go function returns an `error` and fills `*user`; here both come back
as a pair. -/
def findUser (db : DB) (id : Int) (user : models.User) : error × models.User :=
  let user := db.FindWhereID id user
  if user.ID = 0 then
    (some "user does not exist", user)
  else
    (none, user)

def GetUser (db : DB) (c : Ctx) : DB × Response :=
  match c.ParamsInt with
  | none => (db, ⟨400, .message "please ensure that :id is an integer"⟩)
  | some id =>
    match findUser db id models.User.zero with
    | (some err, _) => (db, ⟨400, .message err⟩)
    | (none, user) =>
      let responseUser := CreateResponseUser user
      (db, ⟨200, .user responseUser⟩)

def UpdateUser (db : DB) (now : Nat) (c : Ctx) : DB × Response :=
  match c.ParamsInt with
  | none => (db, ⟨400, .message "please ensure that :id is an integer"⟩)
  | some id =>
    match findUser db id models.User.zero with
    | (some err, _) => (db, ⟨400, .message err⟩)
    | (none, user) =>
      match BodyParserUpdate c.body with
      | .error err => (db, ⟨500, .message err⟩)
      | .ok updateData =>
        let user := { user with FirstName := updateData.FirstName, LastName := updateData.LastName }
        let (db, user) := db.Save now user
        let responseUser := CreateResponseUser user
        (db, ⟨200, .user responseUser⟩)

/-- A sequence of `CreateUser` requests served one after the other, each at
its own time; returns the final store and the responses in call order. -/
def createAll (db : DB) : List (Nat × Ctx) → DB × List Response
  | [] => (db, [])
  | (now, c) :: rest =>
    let (db1, r) := CreateUser db now c
    let (db2, rs) := createAll db1 rest
    (db2, r :: rs)

/-- First and last name a request body submits, an absent member read as the
empty string. -/
def submittedNames : Body → String × String
  | .malformed _ => ("", "")
  | .wellformed _ first_name last_name _ => (first_name.getD "", last_name.getD "")

/-- A `CreateUser` call succeeded: it answered 200 and its record was stored,
the table having one row more than before. -/
def created (db : DB) (now : Nat) (c : Ctx) : Bool :=
  (CreateUser db now c).2.status == 200 &&
    (CreateUser db now c).1.rows.length == db.rows.length + 1

/-- Every call of a sequence of `CreateUser` calls succeeded, each one served
on the store the previous one left. -/
def allCreated (db : DB) : List (Nat × Ctx) → Bool
  | [] => true
  | (now, c) :: rest => created db now c && allCreated (CreateUser db now c).1 rest

/-- DTOs of a run of requests when each is given the next identifier in turn,
starting at `start`. -/
def dtosOf (start : Nat) : List (Nat × Ctx) → List User
  | [] => []
  | (_, c) :: rest =>
    ⟨start, (submittedNames c.body).1, (submittedNames c.body).2⟩ :: dtosOf (start + 1) rest

end routes

open routes fiber gorm

/-! ## Concrete stores and requests used by the closed statements -/

/-- A table whose only row has the identifier `0`. -/
def zeroIdStore : DB := { rows := [⟨0, 1, "Ada", "Lovelace"⟩], seq := 0 }

/-- A table with two rows, identifiers `1` and `2`. -/
def twoUserStore : DB :=
  { rows := [⟨1, 10, "Ada", "Lovelace"⟩, ⟨2, 20, "Alan", "Turing"⟩], seq := 2 }

/-- A table whose only row has the largest rowid, so that it has no
identifier left to assign. -/
def fullStore : DB :=
  { rows := [⟨9223372036854775807, 10, "Ada", "Lovelace"⟩], seq := 9223372036854775807 }

/-! ## Lemmas about the table -/

theorem find_none_of_absent (rows : List models.User) (id : Int)
    (h : ∀ r ∈ rows, (r.ID : Int) ≠ id) :
    rows.find? (fun r => decide ((r.ID : Int) = id)) = none := by
  rw [List.find?_eq_none]
  intro r hr
  simpa using h r hr

theorem find_some_of_unique (rows : List models.User) (r : models.User)
    (huniq : (rows.map (fun x => x.ID)).Nodup) (hr : r ∈ rows) :
    rows.find? (fun x => decide ((x.ID : Int) = (r.ID : Int))) = some r := by
  induction rows with
  | nil => cases hr
  | cons a rest ih =>
    rw [List.map_cons, List.nodup_cons] at huniq
    rcases List.mem_cons.mp hr with rfl | hmem
    · simp [List.find?_cons]
    · have hne : a.ID ≠ r.ID := by
        intro heq
        exact huniq.1 (heq ▸ List.mem_map_of_mem (fun x => x.ID) hmem)
      have hne2 : ¬ ((a.ID : Int) = (r.ID : Int)) := by
        intro heq
        exact hne (by exact_mod_cast heq)
      rw [List.find?_cons]
      simp only [hne2, decide_False]
      exact ih huniq.2 hmem

theorem find_some_mem_id (rows : List models.User) (id : Int) (r : models.User)
    (h : rows.find? (fun x => decide ((x.ID : Int) = id)) = some r) :
    r ∈ rows ∧ (r.ID : Int) = id := by
  refine ⟨List.mem_of_find?_eq_some h, ?_⟩
  have := List.find?_some h
  simpa using this

theorem le_maxID (rows : List models.User) (r : models.User) (hr : r ∈ rows) :
    r.ID ≤ maxID rows := by
  induction rows with
  | nil => cases hr
  | cons a rest ih =>
    rcases List.mem_cons.mp hr with rfl | hmem
    · exact le_max_left _ _
    · exact le_trans (ih hmem) (le_max_right _ _)

theorem nextID_eq_some (db : DB) (n : Nat) (hn : db.nextID = some n) :
    n = db.top + 1 ∧ db.top < maxRowid := by
  unfold DB.nextID at hn
  by_cases h : db.top < maxRowid
  · rw [if_pos h] at hn
    exact ⟨(Option.some.inj hn).symm, h⟩
  · rw [if_neg h] at hn
    cases hn

theorem nextID_eq_none (db : DB) (hn : db.nextID = none) : ¬ db.top < maxRowid := by
  unfold DB.nextID at hn
  intro h
  rw [if_pos h] at hn
  cases hn

theorem lt_of_nextID (db : DB) (n : Nat) (hn : db.nextID = some n) (r : models.User)
    (hr : r ∈ db.rows) : r.ID < n := by
  have h1 := le_maxID db.rows r hr
  have h2 := (nextID_eq_some db n hn).1
  unfold DB.top at h2
  omega

theorem insertRow_of_lt (u : models.User) (rows : List models.User)
    (h : ∀ r ∈ rows, r.ID < u.ID) : insertRow u rows = rows ++ [u] := by
  induction rows with
  | nil => rfl
  | cons a rest ih =>
    have ha : ¬ u.ID < a.ID := by
      have := h a (List.mem_cons_self _ _)
      omega
    simp only [insertRow, ha, if_false, List.cons_append]
    rw [ih (fun r hr => h r (List.mem_cons_of_mem _ hr))]

theorem maxID_append_singleton (rows : List models.User) (u : models.User) :
    maxID (rows ++ [u]) = max (maxID rows) u.ID := by
  induction rows with
  | nil => simp [maxID]
  | cons a rest ih =>
    show max a.ID (maxID (rest ++ [u])) = max (max a.ID (maxID rest)) u.ID
    rw [ih, max_assoc]

theorem foldl_append_eq_map (users : List models.User) (acc : List routes.User) :
    users.foldl (fun acc user => acc ++ [CreateResponseUser user]) acc
      = acc ++ users.map CreateResponseUser := by
  induction users generalizing acc with
  | nil => simp
  | cons a rest ih => simp [List.foldl_cons, ih]

/-! ## Lemmas about the lookup -/

/-- With a destination whose identifier is `0` or already `id`, the query of
`FindWhereID` is the query for `id` alone. -/
theorem FindWhereID_query (id : Int) (user : models.User)
    (h : user.ID = 0 ∨ (user.ID : Int) = id) :
    (fun r : models.User => decide ((r.ID : Int) = id) && (user.ID == 0 || r.ID == user.ID))
      = (fun r : models.User => decide ((r.ID : Int) = id)) := by
  funext r
  rcases h with h | h
  · simp [h]
  · by_cases hr : (r.ID : Int) = id
    · have hru : r.ID = user.ID := by
        have : (r.ID : Int) = (user.ID : Int) := by rw [hr, h]
        exact_mod_cast this
      simp [hr, hru]
    · simp [hr]

/-- Every branch of `findUser` for such a destination, read off the table. -/
theorem findUser_eq (db : DB) (id : Int) (user : models.User)
    (h : user.ID = 0 ∨ (user.ID : Int) = id) :
    findUser db id user =
      match db.rows.find? (fun r => decide ((r.ID : Int) = id)) with
      | some r => if r.ID = 0 then (some "user does not exist", r) else (none, r)
      | none => if user.ID = 0 then (some "user does not exist", user) else (none, user) := by
  unfold findUser DB.FindWhereID
  rw [FindWhereID_query id user h]
  cases db.rows.find? (fun r => decide ((r.ID : Int) = id)) <;> rfl

theorem findUser_of_absent (db : DB) (id : Int)
    (h : ∀ r ∈ db.rows, (r.ID : Int) ≠ id) :
    findUser db id models.User.zero = (some "user does not exist", models.User.zero) := by
  rw [findUser_eq db id models.User.zero (Or.inl rfl), find_none_of_absent db.rows id h]
  rfl

theorem findUser_of_unique_mem (db : DB) (user r : models.User)
    (huniq : (db.rows.map (fun x => x.ID)).Nodup) (hr : r ∈ db.rows) (hnz : r.ID ≠ 0)
    (hdest : user.ID = 0 ∨ (user.ID : Int) = (r.ID : Int)) :
    findUser db (r.ID : Int) user = (none, r) := by
  rw [findUser_eq db _ user hdest, find_some_of_unique db.rows r huniq hr]
  simp [hnz]

theorem findUser_success_iff (db : DB) (id : Int) :
    (findUser db id models.User.zero).1 = none ↔
      id ≠ 0 ∧ ∃ r ∈ db.rows, (r.ID : Int) = id := by
  rw [findUser_eq db id models.User.zero (Or.inl rfl)]
  cases h : db.rows.find? (fun r => decide ((r.ID : Int) = id)) with
  | none =>
    have habs : ∀ r ∈ db.rows, ¬ ((r.ID : Int) = id) := by
      intro r hr
      have := List.find?_eq_none.mp h r hr
      simpa using this
    constructor
    · intro hcontra
      simp [models.User.zero] at hcontra
    · rintro ⟨_, r, hr, hid⟩
      exact absurd hid (habs r hr)
  | some r =>
    obtain ⟨hmem, hid⟩ := find_some_mem_id db.rows id r h
    by_cases hz : r.ID = 0
    · have hid0 : id = 0 := by rw [← hid, hz]; rfl
      simp [hz, hid0]
    · have hne : id ≠ 0 := by
        intro h0
        apply hz
        rw [h0] at hid
        exact_mod_cast hid
      simp only [hz, if_false, true_iff]
      exact ⟨hne, r, hmem, hid⟩

/-! ## C1: the DTO mapper -/

/-- C1: `CreateResponseUser u` has the identifier, first name and last name of
`u`; a DTO is determined by these three fields, and the result does not depend
on the creation timestamp of `u`. The function is total (a Lean function). -/
theorem CreateResponseUser_fields (u : models.User) :
    (CreateResponseUser u).ID = u.ID ∧
    (CreateResponseUser u).FirstName = u.FirstName ∧
    (CreateResponseUser u).LastName = u.LastName ∧
    (∀ d : routes.User, d = ⟨d.ID, d.FirstName, d.LastName⟩) ∧
    (∀ t : Nat, CreateResponseUser { u with CreatedAt := t } = CreateResponseUser u) :=
  ⟨rfl, rfl, rfl, fun _ => rfl, fun _ => rfl⟩

/-! ## C2, C3: lookup by identifier -/

/-- C2: when no row of the table has the identifier `id`, `findUser` on a
zero-valued record fails with the message "user does not exist" (and leaves
the record zero-valued). -/
theorem findUser_absent (db : DB) (id : Int)
    (h : ∀ r ∈ db.rows, (r.ID : Int) ≠ id) :
    findUser db id models.User.zero = (some "user does not exist", models.User.zero) ∧
    (findUser db id models.User.zero).1 ≠ none := by
  rw [findUser_of_absent db id h]
  exact ⟨rfl, by simp⟩

/-- C2 at the identifier 99999 on the empty store. -/
theorem findUser_absent_witness :
    findUser DB.empty 99999 models.User.zero
      = (some "user does not exist", models.User.zero) :=
  (findUser_absent DB.empty 99999 (by intro r hr; cases hr)).1

/-- C3 fails in two ways. For the identifier `0`: the table holds a row with
identifier `0`, its identifiers are unique, and `findUser` on `0` reports that
the user does not exist. For an output record that already carries another
identifier: the table holds the row with identifier `2`, and `findUser` on `2`
with an output record of identifier `1` returns success and leaves the output
record as it was, not equal to the stored row. -/
theorem findUser_zero_id_fails :
    (zeroIdStore.UniqueIDs ∧
      (⟨0, 1, "Ada", "Lovelace"⟩ : models.User) ∈ zeroIdStore.rows ∧
      (findUser zeroIdStore 0 models.User.zero).1 = some "user does not exist" ∧
      (findUser zeroIdStore 0 models.User.zero).1 ≠ none) ∧
    (twoUserStore.UniqueIDs ∧
      (⟨2, 20, "Alan", "Turing"⟩ : models.User) ∈ twoUserStore.rows ∧
      findUser twoUserStore 2 ⟨1, 99, "stale", "record"⟩
        = (none, ⟨1, 99, "stale", "record"⟩) ∧
      (findUser twoUserStore 2 ⟨1, 99, "stale", "record"⟩).2
        ≠ (⟨2, 20, "Alan", "Turing"⟩ : models.User)) := by
  decide

/-- C3 (amended): when the table, whose identifiers are unique, holds a row
`r` with identifier `id`, `id` is not `0`, and the output record comes in with
the identifier `0` (as from every handler) or `id`, `findUser` succeeds and
the output record is `r`. -/
theorem findUser_present (db : DB) (id : Int) (user r : models.User)
    (huniq : db.UniqueIDs) (hr : r ∈ db.rows) (hid : (r.ID : Int) = id) (hnz : id ≠ 0)
    (hdest : user.ID = 0 ∨ (user.ID : Int) = id) :
    findUser db id user = (none, r) := by
  subst hid
  have hz : r.ID ≠ 0 := by
    intro h0
    apply hnz
    simp [h0]
  exact findUser_of_unique_mem db user r huniq hr hz hdest

/-- C3 (amended) on a table with two rows, looking up the second with a
zero-valued output record. -/
theorem findUser_present_witness :
    findUser twoUserStore 2 models.User.zero = (none, ⟨2, 20, "Alan", "Turing"⟩) :=
  findUser_present twoUserStore 2 models.User.zero ⟨2, 20, "Alan", "Turing"⟩
    (by decide) (by decide) (by decide) (by decide) (by decide)

/-! ## C4, C5: the read handlers -/

/-- C4: `GetUser` answers 400 with the fixed instruction when `:id` is not an
integer, 400 with the message of `findUser` when the lookup fails, and 200
with the DTO of the record `findUser` filled otherwise; it produces no other
status, and the store it returns is the one it received. -/
theorem GetUser_response (db : DB) (c : Ctx) :
    (strconv.Atoi c.id = none →
      GetUser db c = (db, ⟨400, .message "please ensure that :id is an integer"⟩)) ∧
    (∀ id err u, strconv.Atoi c.id = some id →
      findUser db id models.User.zero = (some err, u) →
      GetUser db c = (db, ⟨400, .message err⟩)) ∧
    (∀ id u, strconv.Atoi c.id = some id →
      findUser db id models.User.zero = (none, u) →
      GetUser db c = (db, ⟨200, .user (CreateResponseUser u)⟩)) ∧
    ((GetUser db c).2.status = 200 ∨ (GetUser db c).2.status = 400) := by
  refine ⟨?_, ?_, ?_, ?_⟩
  · intro h
    simp [GetUser, Ctx.ParamsInt, h]
  · intro id err u h hf
    simp [GetUser, Ctx.ParamsInt, h, hf]
  · intro id u h hf
    simp [GetUser, Ctx.ParamsInt, h, hf]
  · unfold GetUser Ctx.ParamsInt
    cases strconv.Atoi c.id with
    | none => right; rfl
    | some id =>
      rcases hf : findUser db id models.User.zero with ⟨e, u⟩
      cases e with
      | none => left; simp [hf]
      | some err => right; simp [hf]

/-- C4 at the path parameter "abc". -/
theorem GetUser_response_witness :
    GetUser twoUserStore ⟨"abc", .wellformed none none none none⟩
      = (twoUserStore, ⟨400, .message "please ensure that :id is an integer"⟩) :=
  (GetUser_response twoUserStore ⟨"abc", .wellformed none none none none⟩).1 (by decide)

/-- C5: `GetUsers` answers 200 with `CreateResponseUser` applied to each row
the store returns, in the same order and number, and leaves the store as it
was; on a table with no rows the sequence is empty. -/
theorem GetUsers_response (db : DB) (c : Ctx) :
    GetUsers db c = (db, ⟨200, .users (db.Find.map CreateResponseUser)⟩) ∧
    (db.Find.map CreateResponseUser).length = db.Find.length ∧
    (∀ i : Nat, (db.Find.map CreateResponseUser)[i]? = (db.Find[i]?).map CreateResponseUser) ∧
    (db.rows = [] → GetUsers db c = (db, ⟨200, .users []⟩)) := by
  have h : GetUsers db c = (db, ⟨200, .users (db.Find.map CreateResponseUser)⟩) := by
    simp [GetUsers, foldl_append_eq_map]
  refine ⟨h, by simp, fun i => by simp, ?_⟩
  intro hempty
  rw [h]
  simp [DB.Find, hempty]

/-- C5 on the empty store. -/
theorem GetUsers_response_witness :
    GetUsers DB.empty ⟨"", .wellformed none none none none⟩
      = (DB.empty, ⟨200, .users []⟩) :=
  (GetUsers_response DB.empty ⟨"", .wellformed none none none none⟩).2.2.2 rfl

/-! ## Lemmas about decimal text -/

theorem digit_digitChar : ∀ d : Nat, d < 10 → strconv.digit (strconv.digitChar d) = some d := by
  decide

theorem digits_itoaDigits (fuel : Nat) :
    ∀ (n : Nat) (acc : List Char), n < fuel →
      strconv.digits (strconv.itoaDigits fuel n acc) 0 = strconv.digits acc n := by
  induction fuel with
  | zero => intro n acc h; omega
  | succ k ih =>
    intro n acc h
    unfold strconv.itoaDigits
    by_cases h10 : n < 10
    · rw [if_pos h10]
      simp [strconv.digits, digit_digitChar n h10]
    · rw [if_neg h10, ih (n / 10) _ (by omega)]
      simp only [strconv.digits, digit_digitChar (n % 10) (Nat.mod_lt _ (by decide))]
      congr 1
      omega

theorem itoaDigits_ne_nil (fuel : Nat) :
    ∀ (n : Nat) (acc : List Char), acc ≠ [] → strconv.itoaDigits fuel n acc ≠ [] := by
  induction fuel with
  | zero => intro n acc h; exact h
  | succ k ih =>
    intro n acc _
    unfold strconv.itoaDigits
    by_cases h10 : n < 10
    · rw [if_pos h10]; exact List.cons_ne_nil _ _
    · rw [if_neg h10]; exact ih _ _ (List.cons_ne_nil _ _)

theorem Atoi_of_digits (cs : List Char) (n : Nat) (hne : cs ≠ [])
    (hd : strconv.digits cs 0 = some n) (hn : n < 2 ^ 63) :
    strconv.Atoi (String.mk cs) = some (n : Int) := by
  cases cs with
  | nil => exact absurd rfl hne
  | cons c rest =>
    have hc : ∃ d, strconv.digit c = some d := by
      cases hdc : strconv.digit c with
      | none => simp [strconv.digits, hdc] at hd
      | some d => exact ⟨d, rfl⟩
    obtain ⟨d, hdc⟩ := hc
    have hminus : c ≠ '-' := by
      intro h
      have hnone : strconv.digit '-' = none := by decide
      rw [h, hnone] at hdc
      cases hdc
    have hplus : c ≠ '+' := by
      intro h
      have hnone : strconv.digit '+' = none := by decide
      rw [h, hnone] at hdc
      cases hdc
    have hm : strconv.magnitude (c :: rest) = some n := hd
    unfold strconv.Atoi
    show (match c :: rest with
      | [] => none
      | '-' :: cs =>
        match strconv.magnitude cs with
        | some n => if n ≤ 2 ^ 63 then some (-(n : Int)) else none
        | none => none
      | '+' :: cs =>
        match strconv.magnitude cs with
        | some n => if n < 2 ^ 63 then some (n : Int) else none
        | none => none
      | cs =>
        match strconv.magnitude cs with
        | some n => if n < 2 ^ 63 then some (n : Int) else none
        | none => none) = some (n : Int)
    split
    · rename_i heq; cases heq
    · rename_i heq
      exact absurd (List.cons.inj heq).1 hminus
    · rename_i heq
      exact absurd (List.cons.inj heq).1 hplus
    · rw [hm]
      exact if_pos hn

/-- The decimal text of a number that fits a rowid parses back to it. -/
theorem Atoi_Itoa (n : Nat) (hn : n < 2 ^ 63) :
    strconv.Atoi (strconv.Itoa n) = some (n : Int) := by
  unfold strconv.Itoa
  apply Atoi_of_digits _ n _ _ hn
  · unfold strconv.itoaDigits
    by_cases h10 : n < 10
    · rw [if_pos h10]; exact List.cons_ne_nil _ _
    · rw [if_neg h10]; exact itoaDigits_ne_nil _ _ _ (List.cons_ne_nil _ _)
  · rw [digits_itoaDigits (n + 1) n [] (Nat.lt_succ_self n)]
    rfl

/-! ## Lemmas about the handlers -/

theorem maxRowid_succ : maxRowid + 1 = 2 ^ 63 := by
  unfold maxRowid
  norm_num

theorem CreateUser_assigned (db : DB) (now : Nat) (p : String) (i : Option Nat)
    (fn ln : Option String) (ca : Option Nat) (n : Nat) (hn : db.nextID = some n) :
    CreateUser db now ⟨p, .wellformed i fn ln ca⟩ =
      (⟨db.rows ++ [⟨n, if ca.getD 0 = 0 then now else ca.getD 0, fn.getD "", ln.getD ""⟩], n⟩,
       ⟨200, .user ⟨n, fn.getD "", ln.getD ""⟩⟩) := by
  have hins : ∀ t : Nat, insertRow ⟨n, t, fn.getD "", ln.getD ""⟩ db.rows
      = db.rows ++ [⟨n, t, fn.getD "", ln.getD ""⟩] :=
    fun t => insertRow_of_lt _ _ (fun r hr => lt_of_nextID db n hn r hr)
  by_cases hca : ca.getD 0 = 0
  · simp [CreateUser, BodyParserUser, DB.Create, models.User.zero, hn, hca, hins,
      CreateResponseUser]
  · simp [CreateUser, BodyParserUser, DB.Create, models.User.zero, hn, hca, hins,
      CreateResponseUser]

theorem CreateUser_full (db : DB) (now : Nat) (p : String) (i : Option Nat)
    (fn ln : Option String) (ca : Option Nat) (hn : db.nextID = none) :
    CreateUser db now ⟨p, .wellformed i fn ln ca⟩ =
      (db, ⟨200, .user ⟨0, fn.getD "", ln.getD ""⟩⟩) := by
  by_cases hca : ca.getD 0 = 0
  · simp [CreateUser, BodyParserUser, DB.Create, models.User.zero, hn, hca, CreateResponseUser]
  · simp [CreateUser, BodyParserUser, DB.Create, models.User.zero, hn, hca, CreateResponseUser]

theorem top_after_append (db : DB) (u : models.User) (n : Nat)
    (hn : db.nextID = some n) (hu : u.ID = n) :
    DB.top ⟨db.rows ++ [u], n⟩ = n := by
  have h := (nextID_eq_some db n hn).1
  unfold DB.top at h ⊢
  simp only [maxID_append_singleton, hu]
  omega

theorem GetUser_after_create (db : DB) (n t : Nat) (f l p : String) (b : Body)
    (hn : db.nextID = some n) (hp : strconv.Atoi p = some (n : Int)) :
    GetUser ⟨db.rows ++ [⟨n, t, f, l⟩], n⟩ ⟨p, b⟩ =
      (⟨db.rows ++ [⟨n, t, f, l⟩], n⟩, ⟨200, .user ⟨n, f, l⟩⟩) := by
  have hnone : db.rows.find? (fun r => decide ((r.ID : Int) = (n : Int))) = none :=
    find_none_of_absent db.rows _ (fun r hr heq =>
      Nat.ne_of_lt (lt_of_nextID db n hn r hr) (by exact_mod_cast heq))
  have hz : n ≠ 0 := by
    have := (nextID_eq_some db n hn).1
    omega
  have hfind : findUser ⟨db.rows ++ [⟨n, t, f, l⟩], n⟩ (n : Int) models.User.zero
      = (none, ⟨n, t, f, l⟩) := by
    rw [findUser_eq _ _ models.User.zero (Or.inl rfl)]
    show (match (db.rows ++ [(⟨n, t, f, l⟩ : models.User)]).find?
        (fun r => decide ((r.ID : Int) = (n : Int))) with
      | some r => if r.ID = 0 then (some "user does not exist", r) else (none, r)
      | none => if models.User.zero.ID = 0 then (some "user does not exist", models.User.zero)
          else (none, models.User.zero)) = _
    rw [List.find?_append, hnone]
    simp [hz]
  simp [GetUser, Ctx.ParamsInt, hp, hfind, CreateResponseUser]

theorem created_elim (db : DB) (now : Nat) (c : Ctx) (h : created db now c = true) :
    ∃ n t, db.nextID = some n ∧
      CreateUser db now c =
        (⟨db.rows ++ [⟨n, t, (submittedNames c.body).1, (submittedNames c.body).2⟩], n⟩,
         ⟨200, .user ⟨n, (submittedNames c.body).1, (submittedNames c.body).2⟩⟩) := by
  obtain ⟨p, b⟩ := c
  cases b with
  | malformed err => simp [created, CreateUser, BodyParserUser] at h
  | wellformed i fn ln ca =>
    cases hn : db.nextID with
    | none =>
      rw [created, CreateUser_full db now p i fn ln ca hn] at h
      simp at h
    | some n =>
      exact ⟨n, _, rfl, CreateUser_assigned db now p i fn ln ca n hn⟩

theorem createAll_created (reqs : List (Nat × Ctx)) :
    ∀ db : DB, allCreated db reqs = true →
      (createAll db reqs).1.rows.map CreateResponseUser
        = db.rows.map CreateResponseUser ++ dtosOf (db.top + 1) reqs ∧
      (createAll db reqs).2
        = (dtosOf (db.top + 1) reqs).map (fun d => ⟨200, .user d⟩) := by
  induction reqs with
  | nil => intro db _; simp [createAll, dtosOf]
  | cons q rest ih =>
    intro db h
    obtain ⟨now, c⟩ := q
    simp only [allCreated, Bool.and_eq_true] at h
    obtain ⟨n, t, hn, hcu⟩ := created_elim db now c h.1
    have hrest := h.2
    rw [hcu] at hrest
    have ih1 := ih _ hrest
    rw [top_after_append db _ n hn rfl] at ih1
    have hnt := (nextID_eq_some db n hn).1
    simp only [createAll, hcu, dtosOf]
    rw [← hnt]
    refine ⟨?_, ?_⟩
    · rw [ih1.1]; simp [CreateResponseUser]
    · rw [ih1.2]; simp

/-- A run of well-formed requests succeeds call by call as long as the table
has identifiers left for all of them. -/
theorem allCreated_of_capacity (reqs : List (Nat × Ctx)) :
    ∀ db : DB,
      (∀ q ∈ reqs, ∃ i fn ln ca, q.2.body = .wellformed i fn ln ca) →
      db.top + reqs.length ≤ maxRowid →
      allCreated db reqs = true := by
  induction reqs with
  | nil => intro db _ _; rfl
  | cons q rest ih =>
    intro db h hcap
    obtain ⟨now, c⟩ := q
    obtain ⟨p, b⟩ := c
    obtain ⟨i, fn, ln, ca, hb⟩ := h (now, ⟨p, b⟩) (List.mem_cons_self _ _)
    simp only at hb
    subst hb
    simp only [List.length_cons] at hcap
    have hlt : db.top < maxRowid := by omega
    have hn : db.nextID = some (db.top + 1) := by
      unfold DB.nextID
      rw [if_pos hlt]
    have hcu := CreateUser_assigned db now p i fn ln ca _ hn
    simp only [allCreated, Bool.and_eq_true]
    refine ⟨?_, ?_⟩
    · rw [created, hcu]
      simp
    · rw [hcu]
      apply ih _ (fun q hq => h q (List.mem_cons_of_mem _ hq))
      rw [top_after_append db _ _ hn rfl]
      omega

theorem dtosOf_length (reqs : List (Nat × Ctx)) (start : Nat) :
    (dtosOf start reqs).length = reqs.length := by
  induction reqs generalizing start with
  | nil => rfl
  | cons q rest ih => obtain ⟨now, c⟩ := q; simp [dtosOf, ih]

theorem dtosOf_names (reqs : List (Nat × Ctx)) (start : Nat) :
    (dtosOf start reqs).map (fun d => (d.FirstName, d.LastName))
      = reqs.map (fun q => submittedNames q.2.body) := by
  induction reqs generalizing start with
  | nil => rfl
  | cons q rest ih => obtain ⟨now, c⟩ := q; simp [dtosOf, ih]

theorem dtosOf_ids (reqs : List (Nat × Ctx)) (start : Nat) :
    (dtosOf start reqs).map (fun d => d.ID) = List.range' start reqs.length := by
  induction reqs generalizing start with
  | nil => rfl
  | cons q rest ih => obtain ⟨now, c⟩ := q; simp [dtosOf, ih, List.range'_succ]

theorem map_update_ids (rows : List models.User) (u : models.User) :
    (rows.map (fun x => if x.ID = u.ID then u else x)).map (fun x => x.ID)
      = rows.map (fun x => x.ID) := by
  rw [List.map_map]
  apply List.map_congr_left
  intro x _
  by_cases hx : x.ID = u.ID
  · simp [hx]
  · simp [hx]

theorem hasID_of_mem (db : DB) (r : models.User) (hr : r ∈ db.rows) :
    db.hasID r.ID = true := by
  unfold DB.hasID
  rw [List.any_eq_true]
  exact ⟨r, hr, by simp⟩

/-! ## C6: update -/

/-- C6 fails for the identifier `0`: the table holds a row with identifier
`0`, the path parameter "0" parses to it and the payload is well formed, yet
`UpdateUser` answers 400 "user does not exist" and changes nothing. -/
theorem UpdateUser_zero_id_fails :
    (⟨0, 1, "Ada", "Lovelace"⟩ : models.User) ∈ zeroIdStore.rows ∧
    strconv.Atoi "0" = some 0 ∧
    UpdateUser zeroIdStore 7 ⟨"0", .wellformed none (some "Grace") (some "Hopper") none⟩
      = (zeroIdStore, ⟨400, .message "user does not exist"⟩) := by
  decide

/-- C6 (amended): on a table with unique identifiers, for a row `r` whose
identifier is not `0`, a path parameter that parses to that identifier and a
well-formed payload with first name `fn` and last name `ln` (absent read as
empty), `UpdateUser` answers 200 with the DTO of identifier `r.ID` and the new
names; in the resulting table the row `r` has the new names and its other
fields as before, every other row and the identifier counter are as before;
and `GetUser` on a path parameter that parses to the same identifier then
answers 200 with the same DTO. -/
theorem UpdateUser_existing (db : DB) (now : Nat) (p : String) (bid : Option Nat)
    (fn ln : Option String) (ca : Option Nat) (r : models.User) (p2 : String) (b : Body)
    (huniq : db.UniqueIDs) (hr : r ∈ db.rows)
    (hp : strconv.Atoi p = some (r.ID : Int)) (hnz : r.ID ≠ 0)
    (hp2 : strconv.Atoi p2 = some (r.ID : Int)) :
    UpdateUser db now ⟨p, .wellformed bid fn ln ca⟩ =
      (⟨db.rows.map (fun x =>
          if x.ID = r.ID then { r with FirstName := fn.getD "", LastName := ln.getD "" } else x),
        db.seq⟩,
       ⟨200, .user ⟨r.ID, fn.getD "", ln.getD ""⟩⟩) ∧
    GetUser (UpdateUser db now ⟨p, .wellformed bid fn ln ca⟩).1 ⟨p2, b⟩ =
      ((UpdateUser db now ⟨p, .wellformed bid fn ln ca⟩).1,
       ⟨200, .user ⟨r.ID, fn.getD "", ln.getD ""⟩⟩) := by
  have hfind := findUser_of_unique_mem db models.User.zero r huniq hr hnz (Or.inl rfl)
  have hupd : UpdateUser db now ⟨p, .wellformed bid fn ln ca⟩ =
      (⟨db.rows.map (fun x =>
          if x.ID = r.ID then { r with FirstName := fn.getD "", LastName := ln.getD "" } else x),
        db.seq⟩,
       ⟨200, .user ⟨r.ID, fn.getD "", ln.getD ""⟩⟩) := by
    simp [UpdateUser, Ctx.ParamsInt, hp, hfind, BodyParserUpdate, DB.Save, hnz,
      hasID_of_mem db r hr, CreateResponseUser]
  refine ⟨hupd, ?_⟩
  rw [hupd]
  have huniq2 : (List.map (fun x : models.User => x.ID) (DB.mk (db.rows.map (fun x =>
      if x.ID = r.ID then { r with FirstName := fn.getD "", LastName := ln.getD "" } else x))
      db.seq).rows).Nodup := by
    have := map_update_ids db.rows { r with FirstName := fn.getD "", LastName := ln.getD "" }
    simp only at this
    simp only
    rw [this]
    exact huniq
  have hmem : ({ r with FirstName := fn.getD "", LastName := ln.getD "" } : models.User) ∈
      (DB.mk (db.rows.map (fun x =>
      if x.ID = r.ID then { r with FirstName := fn.getD "", LastName := ln.getD "" } else x))
      db.seq).rows := by
    simp only
    rw [List.mem_map]
    exact ⟨r, hr, by simp⟩
  have hfind2 := findUser_of_unique_mem _ models.User.zero _ huniq2 hmem hnz (Or.inl rfl)
  simp [GetUser, Ctx.ParamsInt, hp2, hfind2, CreateResponseUser]

/-- C6 (amended) on a table with two rows: the second is renamed to Grace
Hopper, the first is untouched, and a following `GetUser` shows the change. -/
theorem UpdateUser_existing_witness :
    UpdateUser twoUserStore 7 ⟨"2", .wellformed none (some "Grace") (some "Hopper") none⟩ =
      (⟨[⟨1, 10, "Ada", "Lovelace"⟩, ⟨2, 20, "Grace", "Hopper"⟩], 2⟩,
       ⟨200, .user ⟨2, "Grace", "Hopper"⟩⟩) ∧
    GetUser (UpdateUser twoUserStore 7
        ⟨"2", .wellformed none (some "Grace") (some "Hopper") none⟩).1 ⟨"+2", .malformed ""⟩ =
      ((UpdateUser twoUserStore 7
        ⟨"2", .wellformed none (some "Grace") (some "Hopper") none⟩).1,
       ⟨200, .user ⟨2, "Grace", "Hopper"⟩⟩) :=
  UpdateUser_existing twoUserStore 7 "2" none (some "Grace") (some "Hopper") none
    ⟨2, 20, "Alan", "Turing"⟩ "+2" (.malformed "")
    (by decide) (by decide) (by decide) (by decide) (by decide)

/-! ## C7: the identifier of a created record -/

/-- C8 fails on a table that has no identifier left: its row has the largest
rowid, `CreateUser` for Ada Lovelace answers 200 with a DTO of identifier `0`
and stores nothing, and `GetUser` on "0" in the resulting store answers 400
"user does not exist". -/
theorem create_then_get_full_store :
    CreateUser fullStore 5 ⟨"", .wellformed none (some "Ada") (some "Lovelace") none⟩
      = (fullStore, ⟨200, .user ⟨0, "Ada", "Lovelace"⟩⟩) ∧
    strconv.Itoa 0 = "0" ∧
    strconv.Atoi "0" = some 0 ∧
    GetUser (CreateUser fullStore 5
        ⟨"", .wellformed none (some "Ada") (some "Lovelace") none⟩).1 ⟨"0", .malformed ""⟩
      = (fullStore, ⟨400, .message "user does not exist"⟩) := by
  decide

/-- C8 (amended): whenever `CreateUser` on the body with first name `f` and
last name `l` answers 200 with a DTO `d` whose identifier is not `0`, the
table had that identifier left to assign, and `GetUser` in the resulting
store, on the decimal text of `d.ID` and on any other path parameter that
parses to `d.ID`, answers 200 with the DTO of identifier `d.ID` and names `f`,
`l`. -/
theorem create_then_get (db : DB) (now : Nat) (p0 : String) (f l : String) (b : Body)
    (d : routes.User)
    (hd : (CreateUser db now ⟨p0, .wellformed none (some f) (some l) none⟩).2
      = ⟨200, .user d⟩)
    (hnz : d.ID ≠ 0) :
    GetUser (CreateUser db now ⟨p0, .wellformed none (some f) (some l) none⟩).1
        ⟨strconv.Itoa d.ID, b⟩ =
      ((CreateUser db now ⟨p0, .wellformed none (some f) (some l) none⟩).1,
       ⟨200, .user ⟨d.ID, f, l⟩⟩) ∧
    (∀ p : String, strconv.Atoi p = some (d.ID : Int) →
      GetUser (CreateUser db now ⟨p0, .wellformed none (some f) (some l) none⟩).1 ⟨p, b⟩ =
        ((CreateUser db now ⟨p0, .wellformed none (some f) (some l) none⟩).1,
         ⟨200, .user ⟨d.ID, f, l⟩⟩)) ∧
    db.nextID = some d.ID := by
  cases hn : db.nextID with
  | none =>
    rw [CreateUser_full db now p0 none (some f) (some l) none hn] at hd
    simp only [Option.getD_some, Response.mk.injEq, Payload.user.injEq, true_and] at hd
    exact absurd (by rw [← hd]) hnz
  | some n =>
    have hc := CreateUser_assigned db now p0 none (some f) (some l) none n hn
    simp only [Option.getD_some, Option.getD_none, if_true] at hc
    rw [hc] at hd ⊢
    simp only [Response.mk.injEq, Payload.user.injEq, true_and] at hd
    subst hd
    have hlt : n < 2 ^ 63 := by
      have h1 := nextID_eq_some db n hn
      have h2 := maxRowid_succ
      omega
    refine ⟨?_, ?_, rfl⟩
    · exact GetUser_after_create db n now f l _ b hn (Atoi_Itoa n hlt)
    · intro p hp
      exact GetUser_after_create db n now f l p b hn hp

/-- C8 (amended) for Ada Lovelace on the empty store: the create answers with
identifier 1 and `GetUser` on the text of 1 returns the same DTO. -/
theorem create_then_get_witness :
    GetUser (CreateUser DB.empty 5 ⟨"", .wellformed none (some "Ada") (some "Lovelace") none⟩).1
        ⟨strconv.Itoa 1, .malformed ""⟩ =
      ((CreateUser DB.empty 5 ⟨"", .wellformed none (some "Ada") (some "Lovelace") none⟩).1,
       ⟨200, .user ⟨1, "Ada", "Lovelace"⟩⟩) ∧
    strconv.Itoa 1 = "1" :=
  ⟨(create_then_get DB.empty 5 "" "Ada" "Lovelace" (.malformed "") ⟨1, "Ada", "Lovelace"⟩
      (by decide) (by decide)).1, by decide⟩

/-! ## C9: create N users, then list -/

/-- C9: for every sequence of `CreateUser` calls on a store with no rows in
which every call succeeds (answers 200 and has its record stored), the answers
are 200 with a DTO each, and a following `GetUsers` answers 200 with exactly
these DTOs in call order: as many as there were calls, with consecutive
identifiers from the first one the store assigns (1, 2, ..., N on a fresh
store) and the names submitted, in that order. -/
theorem createAll_then_GetUsers (db : DB) (reqs : List (Nat × Ctx)) (c : Ctx)
    (hempty : db.rows = []) (h : allCreated db reqs = true) :
    ∃ ds : List routes.User,
      (createAll db reqs).2 = ds.map (fun d => ⟨200, .user d⟩) ∧
      GetUsers (createAll db reqs).1 c = ((createAll db reqs).1, ⟨200, .users ds⟩) ∧
      ds.length = reqs.length ∧
      ds.map (fun d => d.ID) = List.range' (db.top + 1) reqs.length ∧
      ds.map (fun d => (d.FirstName, d.LastName))
        = reqs.map (fun q => submittedNames q.2.body) := by
  obtain ⟨hrows, hresp⟩ := createAll_created reqs db h
  rw [hempty, List.map_nil, List.nil_append] at hrows
  refine ⟨dtosOf (db.top + 1) reqs, hresp, ?_, dtosOf_length _ _, dtosOf_ids _ _,
    dtosOf_names _ _⟩
  simp only [GetUsers, foldl_append_eq_map, DB.Find, hrows, List.nil_append]

/-- C9 for two calls on the fresh store, Ada Lovelace and then Alan Turing. -/
theorem createAll_then_GetUsers_witness :
    ∃ ds : List routes.User,
      (createAll DB.empty
          [(1, ⟨"", .wellformed none (some "Ada") (some "Lovelace") none⟩),
           (2, ⟨"", .wellformed (some 0) (some "Alan") (some "Turing") none⟩)]).2
        = ds.map (fun d => ⟨200, .user d⟩) ∧
      GetUsers (createAll DB.empty
          [(1, ⟨"", .wellformed none (some "Ada") (some "Lovelace") none⟩),
           (2, ⟨"", .wellformed (some 0) (some "Alan") (some "Turing") none⟩)]).1
          ⟨"", .malformed ""⟩
        = ((createAll DB.empty
          [(1, ⟨"", .wellformed none (some "Ada") (some "Lovelace") none⟩),
           (2, ⟨"", .wellformed (some 0) (some "Alan") (some "Turing") none⟩)]).1,
           ⟨200, .users ds⟩) ∧
      ds.length = 2 ∧
      ds.map (fun d => d.ID) = [1, 2] ∧
      ds.map (fun d => (d.FirstName, d.LastName)) = [("Ada", "Lovelace"), ("Alan", "Turing")] :=
  createAll_then_GetUsers DB.empty
    [(1, ⟨"", .wellformed none (some "Ada") (some "Lovelace") none⟩),
     (2, ⟨"", .wellformed (some 0) (some "Alan") (some "Turing") none⟩)]
    ⟨"", .malformed ""⟩ rfl (by decide)

/-! ## C10: failure atomicity and stage order -/

/-- C10 fails for the identifier `0`: the path parameter "0" parses, the table
holds a row with identifier `0`, the body does not deserialise, and
`UpdateUser` answers 400, not 500. -/
theorem UpdateUser_zero_id_status :
    strconv.Atoi "0" = some 0 ∧
    (⟨0, 1, "Ada", "Lovelace"⟩ : models.User) ∈ zeroIdStore.rows ∧
    BodyParserUpdate (.malformed "unexpected end of JSON input")
      = .error "unexpected end of JSON input" ∧
    (UpdateUser zeroIdStore 7 ⟨"0", .malformed "unexpected end of JSON input"⟩).2.status = 400 ∧
    (UpdateUser zeroIdStore 7 ⟨"0", .malformed "unexpected end of JSON input"⟩).2.status ≠ 500 :=
  ⟨by decide, by decide, rfl, by decide, by decide⟩

/-- C10 (amended): a non-200 answer of `CreateUser` or `UpdateUser` leaves the
store as it was, and `GetUser` and `GetUsers` always do; `UpdateUser` answers
500 exactly when `:id` parses as an integer other than `0`, a row with that
identifier exists, and the body fails to deserialise; with an unparsable
`:id`, or one that no row has, it answers 400 whatever the body is. -/
theorem handlers_failure_atomic (db : DB) (now : Nat) (c : Ctx) :
    ((CreateUser db now c).2.status ≠ 200 → (CreateUser db now c).1 = db) ∧
    ((UpdateUser db now c).2.status ≠ 200 → (UpdateUser db now c).1 = db) ∧
    (GetUser db c).1 = db ∧
    (GetUsers db c).1 = db ∧
    ((UpdateUser db now c).2.status = 500 ↔
      ∃ id : Int, strconv.Atoi c.id = some id ∧ id ≠ 0 ∧
        (∃ r ∈ db.rows, (r.ID : Int) = id) ∧
        ∃ err, BodyParserUpdate c.body = .error err) ∧
    (strconv.Atoi c.id = none → (UpdateUser db now c).2.status = 400) ∧
    (∀ id : Int, strconv.Atoi c.id = some id → (∀ r ∈ db.rows, (r.ID : Int) ≠ id) →
      (UpdateUser db now c).2.status = 400) := by
  refine ⟨?_, ?_, ?_, ?_, ?_, ?_, ?_⟩
  · unfold CreateUser
    cases BodyParserUser c.body with
    | error err => intro _; rfl
    | ok user => intro hne; exact absurd rfl hne
  · intro hne
    cases hp : strconv.Atoi c.id with
    | none => simp [UpdateUser, Ctx.ParamsInt, hp]
    | some id =>
      rcases hf : findUser db id models.User.zero with ⟨e, u⟩
      cases e with
      | some err => simp [UpdateUser, Ctx.ParamsInt, hp, hf]
      | none =>
        cases hb : BodyParserUpdate c.body with
        | error err => simp [UpdateUser, Ctx.ParamsInt, hp, hf, hb]
        | ok upd =>
          exfalso
          apply hne
          simp [UpdateUser, Ctx.ParamsInt, hp, hf, hb]
  · cases hp : strconv.Atoi c.id with
    | none => simp [GetUser, Ctx.ParamsInt, hp]
    | some id =>
      rcases hf : findUser db id models.User.zero with ⟨e, u⟩
      cases e <;> simp [GetUser, Ctx.ParamsInt, hp, hf]
  · rfl
  · cases hp : strconv.Atoi c.id with
    | none => simp [UpdateUser, Ctx.ParamsInt, hp]
    | some id =>
      have hiff := findUser_success_iff db id
      rcases hf : findUser db id models.User.zero with ⟨e, u⟩
      rw [hf] at hiff
      cases e with
      | some err =>
        have hno : ¬ (id ≠ 0 ∧ ∃ r ∈ db.rows, (r.ID : Int) = id) := by
          intro hh
          have := hiff.mpr hh
          simp at this
        constructor
        · intro h500
          simp [UpdateUser, Ctx.ParamsInt, hp, hf] at h500
        · rintro ⟨id2, hid2, hnz, hex, _⟩
          cases hid2
          exact absurd ⟨hnz, hex⟩ hno
      | none =>
        have hyes := hiff.mp rfl
        cases hb : BodyParserUpdate c.body with
        | error err =>
          constructor
          · intro _
            exact ⟨id, rfl, hyes.1, hyes.2, err, rfl⟩
          · intro _
            simp [UpdateUser, Ctx.ParamsInt, hp, hf, hb]
        | ok upd =>
          constructor
          · intro h500
            simp [UpdateUser, Ctx.ParamsInt, hp, hf, hb] at h500
          · rintro ⟨_, _, _, _, err, herr⟩
            cases herr
  · intro hp
    simp [UpdateUser, Ctx.ParamsInt, hp]
  · intro id hp habs
    have hf := findUser_of_absent db id habs
    simp [UpdateUser, Ctx.ParamsInt, hp, hf]

/-- C10 (amended) on a table with two rows: a malformed body on the existing
identifier 2 gives 500 and the store is unchanged. -/
theorem handlers_failure_atomic_witness :
    (UpdateUser twoUserStore 7 ⟨"2", .malformed "unexpected end of JSON input"⟩).2.status = 500 ∧
    (UpdateUser twoUserStore 7 ⟨"2", .malformed "unexpected end of JSON input"⟩).1
      = twoUserStore :=
  ⟨by decide,
   (handlers_failure_atomic twoUserStore 7
      ⟨"2", .malformed "unexpected end of JSON input"⟩).2.1 (by decide)⟩
